import Mathlib

/-!
Verification of the conversation session engine of the Gemini-Pro-Chat
repository (React client in `App.tsx`, persistence gateway in
`services/dbService.ts`, generation client wrapper in
`services/geminiService.ts`, plus the Express backend and the
localStorage-only persistence variant).

The embedding models the single-threaded cooperative execution of the
flows as pure functions: each `Date.now()` call site receives an explicit
clock argument, each `uuidv4()` call site receives an explicit fresh id,
and the outcome of the remote generation call is an explicit
`GenOutcome` argument.  Durable persistence is modelled by the
localStorage fallback implementation contained in `dbService.ts` (the
execution path taken when the backend is offline); the `apiRequest`
wrapper and the backend/fallback choice are modelled separately for the
gateway-level theorems.
-/

/-- Message author, from `types.ts` (`enum Role { User = 'user', Model = 'model' }`). -/
inductive Role where
  | user
  | model
deriving DecidableEq

/-- UI language, from `types.ts` (`type Language = 'en' | 'zh'`). -/
inductive Lang where
  | en
  | zh
deriving DecidableEq

/-- One conversation turn, from the `Message` interface in `types.ts`.
Opaque uuid strings are modelled as `Nat` identifiers; `isError` is
optional in TypeScript with runtime default `false`. -/
structure Message where
  id : Nat
  sessionId : Nat
  role : Role
  content : String
  timestamp : Nat
  isError : Bool := false
deriving DecidableEq

/-- A conversation session, from the `Session` interface in `types.ts`.
The `title` field is modelled as `Option String` because the running
program can store JavaScript `null` in it (the title-derivation
continuation in `App.tsx` writes the result of `generateTitle`, which is
`string | null`, without a null check). -/
structure Session where
  id : Nat
  title : Option String
  createdAt : Nat
  updatedAt : Nat
  preview : String
deriving DecidableEq

/-- The localized error string written into a failed Model message,
from `utils/translations.ts` (`error:`). -/
def tError : Lang → String
  | Lang.en => "Failed to send message. Please try again."
  | Lang.zh => "发送失败，请重试。"

/-- JavaScript `String.prototype.trim`, modelled on the character list:
drop leading and trailing whitespace. -/
def jsTrim (s : String) : String :=
  ⟨((s.data.dropWhile Char.isWhitespace).reverse.dropWhile Char.isWhitespace).reverse⟩

/-- JavaScript `string.length`, modelled as the character count. -/
def jsLength (s : String) : Nat := s.data.length

/-- JavaScript `string.substring(0, n)`, modelled as taking the first `n`
characters. -/
def jsTake (s : String) (n : Nat) : String := ⟨s.data.take n⟩

/-- The preview string computed from a message content:
`content.substring(0, 60) + (content.length > 60 ? '...' : '')`
(identical expression in `App.tsx`, `dbService.ts` and `server.js`). -/
def mkPreview (content : String) : String :=
  jsTake content 60 ++ (if 60 < jsLength content then "..." else "")

/- ===== Generation client (`geminiService.ts`, `streamChatResponse`) ===== -/

/-- One iteration of the streaming loop in `streamChatResponse`:
`const text = chunk.text; if (text) { fullText += text; onChunk(fullText); }`.
The state is the pair (fullText, list of values passed to `onChunk` so far);
an empty (or absent) chunk text is falsy and is skipped. -/
def streamStep (st : String × List String) (c : String) : String × List String :=
  if c = "" then st else (st.1 ++ c, st.2 ++ [st.1 ++ c])

/-- `streamChatResponse`, abstracted over the list of raw chunk texts
delivered by the provider: returns the resolved final text (`fullText`)
and the sequence of values passed to the `onChunk` callback. -/
def streamChatResponse (chunks : List String) : String × List String :=
  chunks.foldl streamStep ("", [])

/-- Spec-side characterization (from the spec words, for the refinement
comparison in C9): the sequence of full cumulative texts-so-far, one per
non-empty chunk, starting from accumulated text `acc`. -/
def specCumulativeTexts : List String → String → List String
  | [], _ => []
  | c :: cs, acc =>
    if c = "" then specCumulativeTexts cs acc
    else (acc ++ c) :: specCumulativeTexts cs (acc ++ c)

/- ===== Title deriver (`geminiService.ts`, `generateTitle`) ===== -/

/-- `generateTitle` (the `Promise<string | null>` variant): the provider
call either fails (`Except.error`) or returns `response.text`
(`Option String`, since `text` may be absent).  On failure, or when the
trimmed text is empty, the function resolves with `null`
("Return null on failure so we don't overwrite with New Chat"). -/
def generateTitle (apiResult : Except String (Option String)) : Option String :=
  match apiResult with
  | Except.error _ => none
  | Except.ok none => none
  | Except.ok (some s) =>
    let title := jsTrim s
    if title = "" then none else some title

/-- `generateTitle` (the `Promise<string>` variant of the alternate
`geminiService` file): on failure or empty text it resolves with the
language-specific default title. -/
def generateTitleV1 (apiResult : Except String (Option String)) (lang : Lang) : String :=
  let fallbackTitle := match lang with
    | Lang.zh => "新对话"
    | Lang.en => "New Chat"
  match apiResult with
  | Except.error _ => fallbackTitle
  | Except.ok none => fallbackTitle
  | Except.ok (some s) =>
    let title := jsTrim s
    if title = "" then fallbackTitle else title

/-- The default-title test in `App.tsx`:
`currentSession.title === 'New Chat' || currentSession.title === '新对话'`. -/
def isDefaultTitle (t : Option String) : Bool :=
  t == some "New Chat" || t == some "新对话"

/-- The continuation of `generateTitle(...).then(async (newTitle) => ...)`
in `App.tsx`: writes `newTitle` into the matching session title with no
null check
(`setSessions(prev => prev.map(s => s.id === currentSessionId ? { ...s, title: newTitle } : s))`). -/
def applyTitleResult (sessions : List Session) (sid : Nat) (newTitle : Option String) : List Session :=
  sessions.map (fun s => if s.id = sid then { s with title := newTitle } else s)

/- ===== Persistence gateway: localStorage fallback (`dbService.ts`) ===== -/

/-- The localStorage contents used by `dbService.ts`: the `sessions` key
and one `messages_<sessionId>` key per session (an association list). -/
structure Store where
  sessions : List Session
  messages : List (Nat × List Message)
deriving DecidableEq

/-- Reading the `messages_<sid>` key (`ls.getMessages`); a missing key is `[]`. -/
def getMessagesKey : List (Nat × List Message) → Nat → List Message
  | [], _ => []
  | (k, v) :: rest, sid => if k = sid then v else getMessagesKey rest sid

/-- Writing the `messages_<sid>` key (`ls.saveMessages` /
`localStorage.setItem`): replaces the key if present, otherwise adds it. -/
def setMessagesKey : List (Nat × List Message) → Nat → List Message → List (Nat × List Message)
  | [], sid, msgs => [(sid, msgs)]
  | (k, v) :: rest, sid, msgs =>
    if k = sid then (sid, msgs) :: rest else (k, v) :: setMessagesKey rest sid msgs

/-- `sessions.findIndex(...)` followed by `splice(index, 1)`: returns the
first session whose id matches (if any) together with the remaining list
in original order. -/
def extractSession (sid : Nat) : List Session → Option Session × List Session
  | [] => (none, [])
  | s :: rest =>
    if s.id = sid then (some s, rest)
    else ((extractSession sid rest).1, s :: (extractSession sid rest).2)

/-- The session refresh performed when a message is saved (and, with the
same two fields, by `updateSessionPreviewLocally` in `App.tsx`): the first
matching session gets `updatedAt := now` and `preview := mkPreview content`
and is moved to the front (`splice` + `unshift`); no match leaves the list
unchanged. -/
def bumpPreview (l : List Session) (sid : Nat) (content : String) (now : Nat) : List Session :=
  match extractSession sid l with
  | (none, _) => l
  | (some s, rest) => { s with updatedAt := now, preview := mkPreview content } :: rest

/-- `updateSessionPreviewLocally` in `App.tsx`: same find/update/move-to-front
pattern as the `dbService.ts` fallback refresh, applied to the in-memory
session list. -/
def updateSessionPreviewLocally (prev : List Session) (sid : Nat) (lastMessage : String) (now : Nat) : List Session :=
  bumpPreview prev sid lastMessage now

/-- The fallback body of `dbService.saveMessage` (lines 167-188): append
the new message to the `messages_<sid>` key, then refresh the owning
session's `updatedAt`/`preview` and move it to the front.  The caller
passes the fresh uuid `mid` and the `Date.now()` value `now`. -/
def saveMessageLS (store : Store) (sid : Nat) (role : Role) (content : String)
    (isErr : Bool) (mid now : Nat) : Message × Store :=
  let newMessage : Message := ⟨mid, sid, role, content, now, isErr⟩
  let msgs := getMessagesKey store.messages sid
  let messages1 := setMessagesKey store.messages sid (msgs ++ [newMessage])
  let sessions1 := bumpPreview store.sessions sid content now
  (newMessage, ⟨sessions1, messages1⟩)

/-- A `Partial<Session>` as used by `updateSession` call sites (title,
preview, updatedAt are the fields the program ever patches).  A present
`title` field may carry `null`, hence `Option (Option String)`. -/
structure SessionPatch where
  title : Option (Option String) := none
  preview : Option String := none
  updatedAt : Option Nat := none
deriving DecidableEq

/-- The TypeScript spread `{ ...s, ...updates }`: present patch fields
overwrite, absent fields are kept. -/
def applyPatch (s : Session) (p : SessionPatch) : Session :=
  { s with
    title := p.title.getD s.title,
    preview := p.preview.getD s.preview,
    updatedAt := p.updatedAt.getD s.updatedAt }

/-- The fallback body of `dbService.updateSession`:
`sessions.map(s => s.id === id ? { ...s, ...updates } : s)`. -/
def updateSessionLS (store : Store) (id : Nat) (p : SessionPatch) : Store :=
  { store with
    sessions := store.sessions.map (fun s => if s.id = id then applyPatch s p else s) }

/-- The fallback body of `dbService.deleteSession`: filter the session out
and remove its `messages_<id>` key. -/
def deleteSessionLS (store : Store) (id : Nat) : Store :=
  ⟨store.sessions.filter (fun s => !(s.id == id)),
   store.messages.filter (fun kv => !(kv.1 == id))⟩

/-- The session record built by `createSession` in `dbService.ts`
(default title "New Chat", preview "Start a new conversation", both
timestamps from `Date.now()`). -/
def newSession (id : Nat) (now : Nat) : Session :=
  ⟨id, some "New Chat", now, now, "Start a new conversation"⟩

/- ===== Alternate localStorage-only persistence variant (unnamed file,
second half: the demo `dbService` that sorts on read and always bumps
`updatedAt` on update) ===== -/

/-- Insertion of a session into a list kept in `updatedAt`-descending
order; models the JavaScript
`sort((a, b) => b.updatedAt - a.updatedAt)` comparator. -/
def insertByUpdatedAt (s : Session) : List Session → List Session
  | [] => [s]
  | a :: rest =>
    if a.updatedAt ≤ s.updatedAt then s :: a :: rest
    else a :: insertByUpdatedAt s rest

/-- Sorting by `updatedAt` descending, the read path of the alternate
variant's `getSessions` (and the `ORDER BY updated_at DESC` of the
Express backend). -/
def sortByUpdatedAtDesc (l : List Session) : List Session :=
  l.foldr insertByUpdatedAt []

/-- `getSessions` of the alternate localStorage-only variant: parse the
stored list and sort it by `updatedAt` descending. -/
def getSessionsV2 (stored : List Session) : List Session :=
  sortByUpdatedAtDesc stored

/-- `findIndex` followed by an in-place assignment `sessions[index] = ...`:
updates the first matching session, leaves the rest untouched. -/
def updateFirst (id : Nat) (f : Session → Session) : List Session → List Session
  | [] => []
  | s :: rest => if s.id = id then f s :: rest else s :: updateFirst id f rest

/-- `updateSession` of the alternate localStorage-only variant:
`sessions[index] = { ...sessions[index], ...updates, updatedAt: Date.now() }` —
note the unconditional `updatedAt` refresh. -/
def updateSessionV2 (stored : List Session) (id : Nat) (p : SessionPatch) (now : Nat) : List Session :=
  let sessions := getSessionsV2 stored
  updateFirst id (fun s => { applyPatch s p with updatedAt := now }) sessions

/- ===== Conversation engine (`App.tsx`) ===== -/

/-- Outcome of the awaited `streamChatResponse` call: success carrying the
raw chunk texts delivered, or a rejection carrying the chunk texts
delivered before the failure. -/
inductive GenOutcome where
  | success (chunks : List String)
  | failure (delivered : List String)
deriving DecidableEq

/-- The arguments of one `streamChatResponse` invocation as observed by
the generation client: the history context and the separate new-message
text. -/
structure GenCall where
  history : List Message
  newMessage : String
deriving DecidableEq

/-- The React state owned by `App.tsx` that the engine flows mutate,
plus the durable store. -/
structure AppState where
  sessions : List Session
  currentSessionId : Option Nat
  messages : List Message
  inputValue : String
  isGenerating : Bool
  store : Store
deriving DecidableEq

/-- The `setMessages` update performed by the streaming `onChunk`
callback: replace the content of the message with the given id by the
cumulative text. -/
def updMsg (tid : Nat) (c : String) (m : Message) : Message :=
  if m.id = tid then { m with content := c } else m

/-- The sequence of `onChunk` callbacks applied to the message list:
each callback value fully supersedes the previous content of the target
message. -/
def applyChunks (tid : Nat) (msgs : List Message) (cs : List String) : List Message :=
  cs.foldl (fun ms c => ms.map (updMsg tid c)) msgs

/-- The in-place reset of the regenerate target
(`{ ...m, content: '', isError: false }` for the matching id). -/
def clearMsg (tid : Nat) (m : Message) : Message :=
  if m.id = tid then { m with content := "", isError := false } else m

/-- The error-state rewrite of the in-flight Model message on generation
failure (`{ ...m, content: t.error, isError: true }` for the matching id). -/
def errMsg (tid : Nat) (lang : Lang) (m : Message) : Message :=
  if m.id = tid then { m with content := tError lang, isError := true } else m

/-- `handleSendMessage` in `App.tsx`, as a function of the pre-call state,
the fresh uuids (`userMsgId`, `botMsgId`, and the two ids minted inside
`saveMessage`), the `Date.now()` values of the successive call sites, and
the generation outcome.  Returns the post-flow state together with the
list of generation-client invocations made.  The fire-and-forget title
derivation continuation is modelled separately by `applyTitleResult`.
Durable writes follow the localStorage fallback path of `dbService.ts`. -/
def handleSendMessage (st : AppState) (lang : Lang)
    (userMsgId botMsgId dbId1 dbId2 : Nat) (t1 t2 t3 t4 t5 : Nat)
    (gen : GenOutcome) : AppState × List GenCall :=
  if jsTrim st.inputValue = "" then (st, [])
  else
    match st.currentSessionId with
    | none => (st, [])
    | some sid =>
      if st.isGenerating then (st, [])
      else
        let textToSend := jsTrim st.inputValue
        let userMsg : Message := ⟨userMsgId, sid, Role.user, textToSend, t1, false⟩
        let messages1 := st.messages ++ [userMsg]
        let store1 := (saveMessageLS st.store sid Role.user textToSend false dbId1 t2).2
        let botMsg : Message := ⟨botMsgId, sid, Role.model, "", t3, false⟩
        let messages2 := messages1 ++ [botMsg]
        let call : GenCall := ⟨st.messages, textToSend⟩
        match gen with
        | GenOutcome.success chunks =>
          let fullResponse := (streamChatResponse chunks).1
          let messages3 := applyChunks botMsgId messages2 (streamChatResponse chunks).2
          let store2 := (saveMessageLS store1 sid Role.model fullResponse false dbId2 t4).2
          let sessions2 := updateSessionPreviewLocally st.sessions sid fullResponse t5
          ({ st with sessions := sessions2, messages := messages3, inputValue := "",
                     isGenerating := false, store := store2 }, [call])
        | GenOutcome.failure delivered =>
          let messages3 := (applyChunks botMsgId messages2 delivered).map (errMsg botMsgId lang)
          let store2 := (saveMessageLS store1 sid Role.model (tError lang) true dbId2 t4).2
          ({ st with messages := messages3, inputValue := "",
                     isGenerating := false, store := store2 }, [call])

/-- `handleRegenerate` in `App.tsx` (used for both retry and regenerate):
guards, then clears the target message in place, streams into it, and on
success persists a new durable message and refreshes the preview.  The
failure path only rewrites the in-memory target message.  The
fire-and-forget title re-derivation continuation is modelled separately
by `applyTitleResult`. -/
def handleRegenerate (st : AppState) (lang : Lang) (dbId : Nat) (t4 t5 : Nat)
    (targetMessageId : Nat) (gen : GenOutcome) : AppState × List GenCall :=
  match st.currentSessionId with
  | none => (st, [])
  | some sid =>
    if st.isGenerating then (st, [])
    else
      match st.messages.findIdx? (fun m => m.id = targetMessageId) with
      | none => (st, [])
      | some 0 => (st, [])
      | some (k + 1) =>
        match st.messages[k]? with
        | none => (st, [])
        | some prevMsg =>
          if prevMsg.role = Role.user then
            let textToSend := prevMsg.content
            let messages1 := st.messages.map (clearMsg targetMessageId)
            let call : GenCall := ⟨st.messages.take k, textToSend⟩
            match gen with
            | GenOutcome.success chunks =>
              let fullResponse := (streamChatResponse chunks).1
              let messages2 := applyChunks targetMessageId messages1 (streamChatResponse chunks).2
              let store1 := (saveMessageLS st.store sid Role.model fullResponse false dbId t4).2
              let sessions1 := updateSessionPreviewLocally st.sessions sid fullResponse t5
              ({ st with sessions := sessions1, messages := messages2,
                         isGenerating := false, store := store1 }, [call])
            | GenOutcome.failure delivered =>
              let messages2 := (applyChunks targetMessageId messages1 delivered).map
                (errMsg targetMessageId lang)
              ({ st with messages := messages2, isGenerating := false }, [call])
          else (st, [])

/- ===== Gateway wrapper (`apiRequest` in `dbService.ts`) ===== -/

/-- `apiRequest`: try the backend operation, and on any rejection return
the fallback instead.  Both arguments are the outcomes of the respective
promises; with a working localStorage the fallback is always `ok`. -/
def apiRequest {α : Type} (operation fallback : Except String α) : Except String α :=
  match operation with
  | Except.ok v => Except.ok v
  | Except.error _ => fallback

/-- `dbService.getSessions`: backend fetch wrapped by `apiRequest` with
the `ls.getSessions()` fallback. -/
def getSessionsDB (backend : Except String (List Session)) (store : Store) :
    Except String (List Session) :=
  apiRequest backend (Except.ok store.sessions)

/-- `dbService.createSession`: builds the new session, POSTs it, and on
failure prepends it to the stored list instead.  Returns the session and
the (possibly updated) localStorage contents. -/
def createSessionDB (backend : Except String Unit) (store : Store) (sid now : Nat) :
    Except String (Session × Store) :=
  let ns := newSession sid now
  apiRequest (backend.map fun _ => (ns, store))
    (Except.ok (ns, { store with sessions := ns :: store.sessions }))

/-- `dbService.updateSession`: PATCH wrapped by `apiRequest` with the
map-merge fallback. -/
def updateSessionDB (backend : Except String Unit) (store : Store) (id : Nat) (p : SessionPatch) :
    Except String Store :=
  apiRequest (backend.map fun _ => store) (Except.ok (updateSessionLS store id p))

/-- `dbService.deleteSession`: DELETE wrapped by `apiRequest` with the
filter fallback. -/
def deleteSessionDB (backend : Except String Unit) (store : Store) (id : Nat) :
    Except String Store :=
  apiRequest (backend.map fun _ => store) (Except.ok (deleteSessionLS store id))

/-- `dbService.saveMessage`: POST wrapped by `apiRequest` with the
`saveMessageLS` fallback. -/
def saveMessageDB (backend : Except String Unit) (store : Store) (sid : Nat) (role : Role)
    (content : String) (isErr : Bool) (mid now : Nat) : Except String (Message × Store) :=
  apiRequest (backend.map fun _ => (⟨mid, sid, role, content, now, isErr⟩, store))
    (Except.ok (saveMessageLS store sid role content isErr mid now))

/-- The identity-determining fields of a message (everything except
content and the error flag). -/
def stripCE (m : Message) : Nat × Nat × Role × Nat :=
  (m.id, m.sessionId, m.role, m.timestamp)

/-- The sortedness invariant of the session list: `updatedAt` descending. -/
def SortedDesc (l : List Session) : Prop :=
  l.Pairwise (fun a b => b.updatedAt ≤ a.updatedAt)

instance (l : List Session) : Decidable (SortedDesc l) :=
  List.instDecidablePairwise l

/- ===== Concrete fixtures for witnesses and counterexamples ===== -/

/-- A session holding one completed exchange, used as a concrete fixture. -/
def sessionA : Session := ⟨1, some "New Chat", 0, 3, "resp"⟩

/-- A concrete user message. -/
def msgU : Message := ⟨1, 1, Role.user, "hi", 1, false⟩

/-- A concrete model message answering `msgU`. -/
def msgM : Message := ⟨2, 1, Role.model, "resp", 2, false⟩

/-- A concrete durable store holding `sessionA` and its two messages. -/
def storeA : Store := ⟨[sessionA], [(1, [msgU, msgM])]⟩

/-- A concrete app state: one session with one completed exchange, idle,
with pending input text. -/
def stateA : AppState :=
  ⟨[sessionA], some 1, [msgU, msgM], "hello", false, storeA⟩

/-- The same state while a generation is in flight. -/
def stateGen : AppState := { stateA with isGenerating := true }

/-- A stale session fixture for the reordering counterexample. -/
def sessX : Session := ⟨1, some "Alpha", 0, 10, "p1"⟩

/-- A second, older session fixture. -/
def sessY : Session := ⟨2, some "Beta", 0, 5, "p2"⟩

/- ===== Helper lemmas: streaming ===== -/

theorem stream_foldl_eq (chunks : List String) : ∀ (acc : String) (calls : List String),
    List.foldl streamStep (acc, calls) chunks
      = ((specCumulativeTexts chunks acc).getLastD acc,
         calls ++ specCumulativeTexts chunks acc) := by
  induction chunks with
  | nil => intro acc calls; simp [specCumulativeTexts]
  | cons c cs ih =>
    intro acc calls
    by_cases h : c = ""
    · simp only [List.foldl_cons, streamStep, h, if_pos rfl, specCumulativeTexts]
      simpa using ih acc calls
    · simp only [List.foldl_cons, streamStep, h, if_neg h, specCumulativeTexts, ite_false]
      rw [ih (acc ++ c) (calls ++ [acc ++ c]), List.getLastD_cons]
      simp

theorem chain_cumulative (chunks : List String) : ∀ acc : String,
    List.Chain' (fun a b => ∃ t, b = a ++ t) (acc :: specCumulativeTexts chunks acc) := by
  induction chunks with
  | nil => intro acc; simp [specCumulativeTexts]
  | cons c cs ih =>
    intro acc
    by_cases h : c = ""
    · simpa [specCumulativeTexts, h] using ih acc
    · simp only [specCumulativeTexts, h, ite_false]
      exact List.chain'_cons.mpr ⟨⟨c, rfl⟩, ih (acc ++ c)⟩

/- ===== Helper lemmas: message updates preserve identity/shape ===== -/

theorem msg_ext_of_stripCE {m1 m2 : Message} (h : stripCE m1 = stripCE m2)
    (hc : m1.content = m2.content) (he : m1.isError = m2.isError) : m1 = m2 := by
  cases m1; cases m2; simp_all [stripCE]

theorem stripCE_updMsg (tid : Nat) (c : String) (m : Message) :
    stripCE (updMsg tid c m) = stripCE m := by
  unfold updMsg stripCE; split <;> rfl

theorem applyChunks_eq_map (tid : Nat) (cs : List String) :
    ∃ G : Message → Message,
      (∀ l, applyChunks tid l cs = l.map G)
      ∧ (∀ m, ¬ m.id = tid → G m = m)
      ∧ (∀ m, stripCE (G m) = stripCE m) := by
  induction cs with
  | nil => exact ⟨id, fun l => by simp [applyChunks], fun m _ => rfl, fun m => rfl⟩
  | cons c cs ih =>
    obtain ⟨G, hmap, hfix, hstrip⟩ := ih
    refine ⟨G ∘ updMsg tid c, ?_, ?_, ?_⟩
    · intro l
      have h0 : applyChunks tid l (c :: cs) = applyChunks tid (l.map (updMsg tid c)) cs := by
        simp [applyChunks]
      rw [h0, hmap, List.map_map]
    · intro m hm
      have h1 : updMsg tid c m = m := by simp [updMsg, hm]
      show G (updMsg tid c m) = m
      rw [h1, hfix m hm]
    · intro m
      show stripCE (G (updMsg tid c m)) = stripCE m
      rw [hstrip, stripCE_updMsg]

theorem applyChunks_singleton (tid : Nat) (cs : List String) : ∀ m : Message, m.id = tid →
    applyChunks tid [m] cs = [{ m with content := cs.getLastD m.content }] := by
  induction cs with
  | nil => intro m _; rfl
  | cons c cs ih =>
    intro m hm
    have h0 : applyChunks tid [m] (c :: cs) = applyChunks tid [updMsg tid c m] cs := by
      simp [applyChunks]
    have h2 : updMsg tid c m = { m with content := c } := by simp [updMsg, hm]
    rw [h0, h2, ih { m with content := c } (by simpa using hm), List.getLastD_cons]

theorem applyChunks_append (tid : Nat) (cs : List String) : ∀ l1 l2 : List Message,
    applyChunks tid (l1 ++ l2) cs = applyChunks tid l1 cs ++ applyChunks tid l2 cs := by
  induction cs with
  | nil => intro l1 l2; rfl
  | cons c cs ih =>
    intro l1 l2
    show applyChunks tid ((l1 ++ l2).map (updMsg tid c)) cs
       = applyChunks tid (l1.map (updMsg tid c)) cs ++ applyChunks tid (l2.map (updMsg tid c)) cs
    rw [List.map_append]
    exact ih (l1.map (updMsg tid c)) (l2.map (updMsg tid c))

/- ===== Helper lemmas: extractSession / bumpPreview ===== -/

theorem extractSession_id (sid : Nat) : ∀ (l : List Session) (s : Session) (rest : List Session),
    extractSession sid l = (some s, rest) → s.id = sid := by
  intro l
  induction l with
  | nil => intro s rest h; simp [extractSession] at h
  | cons a t ih =>
    intro s rest h
    by_cases ha : a.id = sid
    · simp only [extractSession, if_pos ha] at h
      obtain ⟨h1, _⟩ := Prod.mk.injEq .. ▸ h
      cases h
      exact ha
    · simp only [extractSession, if_neg ha] at h
      have h1 : (extractSession sid t).1 = some s := congrArg Prod.fst h
      have hx : extractSession sid t = (some s, (extractSession sid t).2) := by
        rw [← h1]
      exact ih s (extractSession sid t).2 hx

theorem extractSession_sublist (sid : Nat) : ∀ l : List Session,
    (extractSession sid l).2.Sublist l := by
  intro l
  induction l with
  | nil => simp [extractSession]
  | cons a t ih =>
    by_cases ha : a.id = sid
    · simp only [extractSession, if_pos ha]
      exact List.sublist_cons_self a t
    · simp only [extractSession, if_neg ha]
      exact ih.cons₂ a

/- ===== Helper lemmas: session-list ordering ===== -/

theorem sortedDesc_cons (s : Session) (l : List Session) (h : SortedDesc l)
    (hb : ∀ x ∈ l, x.updatedAt ≤ s.updatedAt) : SortedDesc (s :: l) :=
  List.pairwise_cons.mpr ⟨hb, h⟩

theorem sortedDesc_filter (l : List Session) (p : Session → Bool) (h : SortedDesc l) :
    SortedDesc (l.filter p) :=
  List.Pairwise.sublist (List.filter_sublist l) h

theorem sortedDesc_bumpPreview (l : List Session) (sid : Nat) (c : String) (now : Nat)
    (h : SortedDesc l) (hb : ∀ x ∈ l, x.updatedAt ≤ now) :
    SortedDesc (bumpPreview l sid c now) := by
  rcases hx : extractSession sid l with ⟨f, rest⟩
  cases f with
  | none => simpa [bumpPreview, hx] using h
  | some s =>
    have hsub : rest.Sublist l := by
      have h0 := extractSession_sublist sid l
      rw [hx] at h0
      exact h0
    simp only [bumpPreview, hx]
    apply List.pairwise_cons.mpr
    refine ⟨?_, List.Pairwise.sublist hsub h⟩
    intro b hb2
    exact hb b (hsub.subset hb2)

theorem mem_insertByUpdatedAt (s x : Session) : ∀ l : List Session,
    x ∈ insertByUpdatedAt s l → x = s ∨ x ∈ l := by
  intro l
  induction l with
  | nil => intro h; simp [insertByUpdatedAt] at h; exact Or.inl h
  | cons a t ih =>
    intro h
    by_cases hc : a.updatedAt ≤ s.updatedAt
    · simp only [insertByUpdatedAt, if_pos hc, List.mem_cons] at h
      rcases h with h | h | h
      · exact Or.inl h
      · exact Or.inr (List.mem_cons.mpr (Or.inl h))
      · exact Or.inr (List.mem_cons.mpr (Or.inr h))
    · simp only [insertByUpdatedAt, if_neg hc, List.mem_cons] at h
      rcases h with h | h
      · exact Or.inr (List.mem_cons.mpr (Or.inl h))
      · rcases ih h with h2 | h2
        · exact Or.inl h2
        · exact Or.inr (List.mem_cons.mpr (Or.inr h2))

theorem sortedDesc_insert (s : Session) : ∀ l : List Session,
    SortedDesc l → SortedDesc (insertByUpdatedAt s l) := by
  intro l
  induction l with
  | nil => intro _; simp [insertByUpdatedAt, SortedDesc]
  | cons a t ih =>
    intro h
    have h1 : SortedDesc t := (List.pairwise_cons.mp h).2
    have h2 : ∀ x ∈ t, x.updatedAt ≤ a.updatedAt := (List.pairwise_cons.mp h).1
    by_cases hc : a.updatedAt ≤ s.updatedAt
    · simp only [insertByUpdatedAt, if_pos hc]
      apply List.pairwise_cons.mpr
      refine ⟨?_, h⟩
      intro x hx
      rcases List.mem_cons.mp hx with rfl | hx2
      · exact hc
      · exact le_trans (h2 x hx2) hc
    · simp only [insertByUpdatedAt, if_neg hc]
      apply List.pairwise_cons.mpr
      refine ⟨?_, ih h1⟩
      intro x hx
      rcases mem_insertByUpdatedAt s x t hx with rfl | hx2
      · omega
      · exact h2 x hx2

theorem sortedDesc_sort (l : List Session) : SortedDesc (sortByUpdatedAtDesc l) := by
  induction l with
  | nil => simp [sortByUpdatedAtDesc, SortedDesc]
  | cons a t ih =>
    rw [sortByUpdatedAtDesc, List.foldr_cons]
    exact sortedDesc_insert a _ ih

theorem stream_resolved_eq (chunks : List String) :
    streamChatResponse chunks
      = ((specCumulativeTexts chunks "").getLastD "", specCumulativeTexts chunks "") := by
  simpa [streamChatResponse] using stream_foldl_eq chunks "" []

/- ===== Claim theorems ===== -/

/-- C9: in every execution of `streamChatResponse`, `onChunk` is invoked
zero or more times, each invocation receives the full cumulative
text-so-far (so each successive value extends the previous one — never a
delta), and the resolved final text equals the last `onChunk` value, or
the empty string if `onChunk` was never invoked. -/
theorem C9_stream_cumulative (chunks : List String) :
    (streamChatResponse chunks).2 = specCumulativeTexts chunks ""
    ∧ List.Chain' (fun a b => ∃ t, b = a ++ t) (streamChatResponse chunks).2
    ∧ (streamChatResponse chunks).1 = (streamChatResponse chunks).2.getLastD "" := by
  rw [stream_resolved_eq]
  refine ⟨rfl, ?_, rfl⟩
  exact (chain_cumulative chunks "").tail

/-- C1: a call to send whose precondition fails (empty trimmed text, no
active session, or a generation already in flight) is a silent no-op:
the state (messages, sessions, `isGenerating`, store) is returned
unchanged and no generation call is made. -/
theorem C1_send_guard_noop (st : AppState) (lang : Lang)
    (u b d1 d2 t1 t2 t3 t4 t5 : Nat) (gen : GenOutcome)
    (h : jsTrim st.inputValue = "" ∨ st.currentSessionId = none ∨ st.isGenerating = true) :
    handleSendMessage st lang u b d1 d2 t1 t2 t3 t4 t5 gen = (st, []) := by
  rcases h with h | h | h
  · simp [handleSendMessage, h]
  · by_cases ht : jsTrim st.inputValue = "" <;> simp [handleSendMessage, ht, h]
  · by_cases ht : jsTrim st.inputValue = ""
    · simp [handleSendMessage, ht]
    · rcases hc : st.currentSessionId with _ | sid <;>
        simp [handleSendMessage, ht, hc, h]

theorem C1_send_guard_noop_witness :
    stateGen.isGenerating = true
    ∧ handleSendMessage stateGen Lang.en 10 11 12 13 4 5 6 7 8 (GenOutcome.success [])
        = (stateGen, []) :=
  ⟨rfl, C1_send_guard_noop stateGen Lang.en 10 11 12 13 4 5 6 7 8 (GenOutcome.success [])
    (Or.inr (Or.inr rfl))⟩

/-- C4: the history passed to the generation client.  For send it is
exactly the pre-exchange message list (the prompting User message and the
fresh Model message are excluded), with the trimmed prompt text as the
separate new-message argument; for regenerate it is exactly the messages
strictly before the preceding User prompt at index `k`, with that
prompt's content as the separate new-message argument. -/
theorem C4_history_excludes_exchange
    (st : AppState) (lang : Lang) (u b d1 d2 t1 t2 t3 t4 t5 : Nat) (gen : GenOutcome) (sid : Nat)
    (hne : ¬ jsTrim st.inputValue = "") (hc : st.currentSessionId = some sid)
    (hg : st.isGenerating = false)
    (st2 : AppState) (lang2 : Lang) (d3 t6 t7 tid k : Nat) (gen2 : GenOutcome) (sid2 : Nat)
    (pm : Message)
    (hc2 : st2.currentSessionId = some sid2) (hg2 : st2.isGenerating = false)
    (hf2 : st2.messages.findIdx? (fun m => m.id = tid) = some (k + 1))
    (hk2 : st2.messages[k]? = some pm) (hr2 : pm.role = Role.user) :
    (handleSendMessage st lang u b d1 d2 t1 t2 t3 t4 t5 gen).2
        = [⟨st.messages, jsTrim st.inputValue⟩]
    ∧ (handleRegenerate st2 lang2 d3 t6 t7 tid gen2).2
        = [⟨st2.messages.take k, pm.content⟩] := by
  constructor
  · cases gen <;> simp [handleSendMessage, hne, hc, hg]
  · cases gen2 <;> simp [handleRegenerate, hc2, hg2, hf2, hk2, hr2]

theorem C4_history_excludes_exchange_witness :
    (¬ jsTrim stateA.inputValue = "")
    ∧ (handleSendMessage stateA Lang.en 10 11 12 13 4 5 6 7 8 (GenOutcome.success ["x"])).2
        = [⟨stateA.messages, jsTrim stateA.inputValue⟩]
    ∧ (handleRegenerate stateA Lang.en 14 9 10 2 (GenOutcome.success ["x"])).2
        = [⟨stateA.messages.take 0, msgU.content⟩] :=
  ⟨by decide,
   C4_history_excludes_exchange stateA Lang.en 10 11 12 13 4 5 6 7 8 (GenOutcome.success ["x"]) 1
     (by decide) rfl rfl
     stateA Lang.en 14 9 10 2 0 (GenOutcome.success ["x"]) 1 msgU
     rfl rfl (by decide) rfl rfl⟩

theorem clearMsg_noop (tid : Nat) (m : Message) (hm : ¬ m.id = tid) :
    clearMsg tid m = m := if_neg hm

theorem errMsg_noop (tid : Nat) (lang : Lang) (m : Message) (hm : ¬ m.id = tid) :
    errMsg tid lang m = m := if_neg hm

theorem stripCE_clearMsg (tid : Nat) (m : Message) :
    stripCE (clearMsg tid m) = stripCE m := by
  unfold clearMsg; split <;> rfl

theorem stripCE_errMsg (tid : Nat) (lang : Lang) (m : Message) :
    stripCE (errMsg tid lang m) = stripCE m := by
  unfold errMsg; split <;> rfl

theorem regen_messages_shape (st : AppState) (lang : Lang) (d3 t6 t7 tid k : Nat)
    (gen : GenOutcome) (sid : Nat) (pm : Message)
    (hc : st.currentSessionId = some sid) (hg : st.isGenerating = false)
    (hf : st.messages.findIdx? (fun m => m.id = tid) = some (k + 1))
    (hk : st.messages[k]? = some pm) (hr : pm.role = Role.user) :
    ∃ F : Message → Message,
      (handleRegenerate st lang d3 t6 t7 tid gen).1.messages = st.messages.map F
      ∧ (∀ m, ¬ m.id = tid → F m = m)
      ∧ (∀ m, stripCE (F m) = stripCE m) := by
  cases gen with
  | success chunks =>
    obtain ⟨G, hmap, hfix, hstrip⟩ := applyChunks_eq_map tid (streamChatResponse chunks).2
    refine ⟨G ∘ clearMsg tid, ?_, ?_, ?_⟩
    · simp only [handleRegenerate, hc, hg, hf, hk, hr]
      rw [hmap, List.map_map]
      rfl
    · intro m hm
      show G (clearMsg tid m) = m
      rw [clearMsg_noop tid m hm, hfix m hm]
    · intro m
      show stripCE (G (clearMsg tid m)) = stripCE m
      rw [hstrip, stripCE_clearMsg]
  | failure delivered =>
    obtain ⟨G, hmap, hfix, hstrip⟩ := applyChunks_eq_map tid delivered
    refine ⟨errMsg tid lang ∘ (G ∘ clearMsg tid), ?_, ?_, ?_⟩
    · simp only [handleRegenerate, hc, hg, hf, hk, hr]
      rw [hmap, List.map_map, List.map_map]
      rfl
    · intro m hm
      show errMsg tid lang (G (clearMsg tid m)) = m
      rw [clearMsg_noop tid m hm, hfix m hm, errMsg_noop tid lang m hm]
    · intro m
      show stripCE (errMsg tid lang (G (clearMsg tid m))) = stripCE m
      rw [stripCE_errMsg, hstrip, stripCE_clearMsg]

/-- C5: regenerate on a valid target preserves every message's id,
sessionId, role, timestamp and its index; no message is added or removed;
messages other than the target are completely unchanged. -/
theorem C5_regenerate_preserves_identity (st : AppState) (lang : Lang)
    (d3 t6 t7 tid k : Nat) (gen : GenOutcome) (sid : Nat) (pm : Message)
    (hc : st.currentSessionId = some sid) (hg : st.isGenerating = false)
    (hf : st.messages.findIdx? (fun m => m.id = tid) = some (k + 1))
    (hk : st.messages[k]? = some pm) (hr : pm.role = Role.user) :
    ((handleRegenerate st lang d3 t6 t7 tid gen).1.messages).map stripCE
        = st.messages.map stripCE
    ∧ (handleRegenerate st lang d3 t6 t7 tid gen).1.messages.length = st.messages.length
    ∧ ∀ (j : Nat) (m : Message), st.messages[j]? = some m → ¬ m.id = tid →
        (handleRegenerate st lang d3 t6 t7 tid gen).1.messages[j]? = some m := by
  obtain ⟨F, hmess, hfix, hstrip⟩ :=
    regen_messages_shape st lang d3 t6 t7 tid k gen sid pm hc hg hf hk hr
  refine ⟨?_, ?_, ?_⟩
  · rw [hmess, List.map_map]
    exact List.map_congr_left fun m _ => hstrip m
  · rw [hmess, List.length_map]
  · intro j m hj hm
    rw [hmess, List.getElem?_map, hj]
    simp [hfix m hm]

theorem C5_regenerate_preserves_identity_witness :
    stateA.messages.findIdx? (fun m => m.id = 2) = some (0 + 1)
    ∧ (((handleRegenerate stateA Lang.en 14 9 10 2 (GenOutcome.success ["x"])).1.messages).map stripCE
          = stateA.messages.map stripCE
       ∧ (handleRegenerate stateA Lang.en 14 9 10 2 (GenOutcome.success ["x"])).1.messages.length
          = stateA.messages.length
       ∧ ∀ (j : Nat) (m : Message), stateA.messages[j]? = some m → ¬ m.id = 2 →
          (handleRegenerate stateA Lang.en 14 9 10 2 (GenOutcome.success ["x"])).1.messages[j]?
            = some m) :=
  ⟨by decide,
   C5_regenerate_preserves_identity stateA Lang.en 14 9 10 2 0 (GenOutcome.success ["x"]) 1 msgU
     rfl rfl (by decide) rfl rfl⟩

theorem stream_final_getLastD (chunks : List String) :
    (streamChatResponse chunks).2.getLastD "" = (streamChatResponse chunks).1 := by
  rw [stream_resolved_eq]

theorem applyChunks_on_fresh (b : Nat) (cs : List String) (l : List Message) (u bmsg : Message)
    (hfresh : ∀ m ∈ l, ¬ m.id = b) (hu : ¬ u.id = b) (hb : bmsg.id = b) :
    applyChunks b ((l ++ [u]) ++ [bmsg]) cs
      = l ++ [u, { bmsg with content := cs.getLastD bmsg.content }] := by
  obtain ⟨G, hmap, hfix, _⟩ := applyChunks_eq_map b cs
  rw [applyChunks_append, applyChunks_append, hmap l, hmap [u],
      applyChunks_singleton b cs bmsg hb]
  have h2 : l.map G = l :=
    (List.map_congr_left fun m hm => hfix m (hfresh m hm)).trans (List.map_id l)
  rw [h2]
  simp [hfix u hu]

theorem send_success_messages (st : AppState) (lang : Lang) (u b d1 d2 t1 t2 t3 t4 t5 : Nat)
    (chunks : List String) (sid : Nat)
    (hne : ¬ jsTrim st.inputValue = "") (hc : st.currentSessionId = some sid)
    (hg : st.isGenerating = false)
    (hfresh : ∀ m ∈ st.messages, ¬ m.id = b) (hub : ¬ u = b) :
    (handleSendMessage st lang u b d1 d2 t1 t2 t3 t4 t5 (GenOutcome.success chunks)).1.messages
      = st.messages ++ [⟨u, sid, Role.user, jsTrim st.inputValue, t1, false⟩,
                        ⟨b, sid, Role.model, (streamChatResponse chunks).1, t3, false⟩] := by
  simp only [handleSendMessage, hne, hc, hg]
  rw [applyChunks_on_fresh b (streamChatResponse chunks).2 st.messages
        ⟨u, sid, Role.user, jsTrim st.inputValue, t1, false⟩
        ⟨b, sid, Role.model, "", t3, false⟩ hfresh hub rfl,
      stream_final_getLastD chunks]
  rfl

theorem send_failure_messages (st : AppState) (lang : Lang) (u b d1 d2 t1 t2 t3 t4 t5 : Nat)
    (delivered : List String) (sid : Nat)
    (hne : ¬ jsTrim st.inputValue = "") (hc : st.currentSessionId = some sid)
    (hg : st.isGenerating = false)
    (hfresh : ∀ m ∈ st.messages, ¬ m.id = b) (hub : ¬ u = b) :
    (handleSendMessage st lang u b d1 d2 t1 t2 t3 t4 t5 (GenOutcome.failure delivered)).1.messages
      = st.messages ++ [⟨u, sid, Role.user, jsTrim st.inputValue, t1, false⟩,
                        ⟨b, sid, Role.model, tError lang, t3, true⟩] := by
  simp only [handleSendMessage, hne, hc, hg]
  rw [applyChunks_on_fresh b delivered st.messages
        ⟨u, sid, Role.user, jsTrim st.inputValue, t1, false⟩
        ⟨b, sid, Role.model, "", t3, false⟩ hfresh hub rfl,
      List.map_append]
  have h2 : st.messages.map (errMsg b lang) = st.messages :=
    (List.map_congr_left fun m hm => errMsg_noop b lang m (hfresh m hm)).trans
      (List.map_id st.messages)
  rw [h2]
  simp [errMsg, hub]

theorem getMessagesKey_set (l : List (Nat × List Message)) (sid : Nat) (msgs : List Message) :
    getMessagesKey (setMessagesKey l sid msgs) sid = msgs := by
  induction l with
  | nil => simp [setMessagesKey, getMessagesKey]
  | cons kv rest ih =>
    rcases kv with ⟨k, v⟩
    by_cases h : k = sid
    · simp [setMessagesKey, getMessagesKey, h]
    · simp [setMessagesKey, getMessagesKey, h, ih]

theorem saveMessageLS_messages (store : Store) (sid : Nat) (role : Role) (content : String)
    (isErr : Bool) (mid now : Nat) :
    getMessagesKey (saveMessageLS store sid role content isErr mid now).2.messages sid
      = getMessagesKey store.messages sid ++ [⟨mid, sid, role, content, now, isErr⟩] := by
  simp [saveMessageLS, getMessagesKey_set]

theorem id_of_stripCE {x y : Message} (h : stripCE x = stripCE y) : x.id = y.id :=
  congrArg Prod.fst h

/-- C2 (corrected/amended): on a send generation failure the in-flight
Model message is set to the fixed localized error string with
`isError = true`, and this error-state message is durably persisted.  On
a regenerate generation failure the target message is set to the same
error state in memory only: the durable store is left completely
unchanged, so the failure does not survive a reload. -/
theorem C2_failure_error_state (st : AppState) (lang : Lang) (u b d1 d2 t1 t2 t3 t4 t5 : Nat)
    (delivered : List String) (sid : Nat)
    (hne : ¬ jsTrim st.inputValue = "") (hc : st.currentSessionId = some sid)
    (hg : st.isGenerating = false)
    (hfresh : ∀ m ∈ st.messages, ¬ m.id = b) (hub : ¬ u = b)
    (st2 : AppState) (lang2 : Lang) (d3 t6 t7 tid k : Nat) (del2 : List String) (sid2 : Nat)
    (pm : Message)
    (hc2 : st2.currentSessionId = some sid2) (hg2 : st2.isGenerating = false)
    (hf2 : st2.messages.findIdx? (fun m => m.id = tid) = some (k + 1))
    (hk2 : st2.messages[k]? = some pm) (hr2 : pm.role = Role.user) :
    (handleSendMessage st lang u b d1 d2 t1 t2 t3 t4 t5 (GenOutcome.failure delivered)).1.messages
      = st.messages ++ [⟨u, sid, Role.user, jsTrim st.inputValue, t1, false⟩,
                        ⟨b, sid, Role.model, tError lang, t3, true⟩]
    ∧ getMessagesKey
        (handleSendMessage st lang u b d1 d2 t1 t2 t3 t4 t5
          (GenOutcome.failure delivered)).1.store.messages sid
      = getMessagesKey st.store.messages sid
          ++ [⟨d1, sid, Role.user, jsTrim st.inputValue, t2, false⟩,
              ⟨d2, sid, Role.model, tError lang, t4, true⟩]
    ∧ (handleRegenerate st2 lang2 d3 t6 t7 tid (GenOutcome.failure del2)).1.messages
      = st2.messages.map (errMsg tid lang2)
    ∧ (handleRegenerate st2 lang2 d3 t6 t7 tid (GenOutcome.failure del2)).1.store = st2.store := by
  refine ⟨send_failure_messages st lang u b d1 d2 t1 t2 t3 t4 t5 delivered sid
            hne hc hg hfresh hub, ?_, ?_, ?_⟩
  · have hst : (handleSendMessage st lang u b d1 d2 t1 t2 t3 t4 t5
          (GenOutcome.failure delivered)).1.store
        = (saveMessageLS (saveMessageLS st.store sid Role.user (jsTrim st.inputValue) false d1 t2).2
            sid Role.model (tError lang) true d2 t4).2 := by
      simp only [handleSendMessage, hc, hg]
      rw [if_neg hne]
      rfl
    rw [hst, saveMessageLS_messages, saveMessageLS_messages, List.append_assoc]
    rfl
  · obtain ⟨G, hmap, hfix, hstrip⟩ := applyChunks_eq_map tid del2
    have hred :
        (handleRegenerate st2 lang2 d3 t6 t7 tid (GenOutcome.failure del2)).1.messages
          = st2.messages.map (errMsg tid lang2 ∘ (G ∘ clearMsg tid)) := by
      simp only [handleRegenerate, hc2, hg2, hf2, hk2, hr2]
      rw [hmap, List.map_map, List.map_map]
      rfl
    rw [hred]
    apply List.map_congr_left
    intro m _
    by_cases hm : m.id = tid
    · show errMsg tid lang2 (G (clearMsg tid m)) = errMsg tid lang2 m
      have hid : (G (clearMsg tid m)).id = m.id := by
        have h1 := id_of_stripCE (hstrip (clearMsg tid m))
        have h2 := id_of_stripCE (stripCE_clearMsg tid m)
        rw [h1, h2]
      apply msg_ext_of_stripCE
      · rw [stripCE_errMsg, stripCE_errMsg, hstrip, stripCE_clearMsg]
      · simp [errMsg, hid, hm]
      · simp [errMsg, hid, hm]
    · show errMsg tid lang2 (G (clearMsg tid m)) = errMsg tid lang2 m
      rw [clearMsg_noop tid m hm, hfix m hm]
  · simp only [handleRegenerate, hc2, hg2, hf2, hk2, hr2]
    rfl

theorem C2_failure_error_state_witness :
    ((¬ jsTrim stateA.inputValue = "") ∧ (∀ m ∈ stateA.messages, ¬ m.id = 11))
    ∧ ((handleSendMessage stateA Lang.en 10 11 12 13 4 5 6 7 8 (GenOutcome.failure [])).1.messages
        = stateA.messages ++ [⟨10, 1, Role.user, jsTrim stateA.inputValue, 4, false⟩,
                              ⟨11, 1, Role.model, tError Lang.en, 6, true⟩]
      ∧ getMessagesKey
          (handleSendMessage stateA Lang.en 10 11 12 13 4 5 6 7 8
            (GenOutcome.failure [])).1.store.messages 1
        = getMessagesKey stateA.store.messages 1
            ++ [⟨12, 1, Role.user, jsTrim stateA.inputValue, 5, false⟩,
                ⟨13, 1, Role.model, tError Lang.en, 7, true⟩]
      ∧ (handleRegenerate stateA Lang.en 99 7 8 2 (GenOutcome.failure [])).1.messages
        = stateA.messages.map (errMsg 2 Lang.en)
      ∧ (handleRegenerate stateA Lang.en 99 7 8 2 (GenOutcome.failure [])).1.store
        = stateA.store) :=
  ⟨⟨by decide, by decide⟩,
   C2_failure_error_state stateA Lang.en 10 11 12 13 4 5 6 7 8 [] 1
     (by decide) rfl rfl (by decide) (by decide)
     stateA Lang.en 99 7 8 2 0 [] 1 msgU
     rfl rfl (by decide) rfl rfl⟩

theorem C2_regenerate_failure_not_persisted :
    (handleRegenerate stateA Lang.en 99 7 8 2 (GenOutcome.failure [])).1.store = stateA.store
    ∧ (handleRegenerate stateA Lang.en 99 7 8 2 (GenOutcome.failure [])).1.messages.map
        (fun m => (m.content, m.isError))
      = [("hi", false), (tError Lang.en, true)]
    ∧ (getMessagesKey stateA.store.messages 1).all (fun m => !m.isError) = true := by
  decide

/-- C6 (corrected/amended): on a send generation failure the in-memory
session list (hence its preview) keeps its prior value, but the durable
store's preview for the session IS refreshed to the (truncated) error
string, because every `saveMessage` — including the error-state save —
refreshes the owning session's preview as a side effect. -/
theorem C6_preview_on_failure (st : AppState) (lang : Lang) (u b d1 d2 t1 t2 t3 t4 t5 : Nat)
    (delivered : List String) (sid : Nat) (s0 : Session) (rest : List Session)
    (hne : ¬ jsTrim st.inputValue = "") (hc : st.currentSessionId = some sid)
    (hg : st.isGenerating = false)
    (hs : extractSession sid st.store.sessions = (some s0, rest)) :
    (handleSendMessage st lang u b d1 d2 t1 t2 t3 t4 t5 (GenOutcome.failure delivered)).1.sessions
      = st.sessions
    ∧ ((handleSendMessage st lang u b d1 d2 t1 t2 t3 t4 t5
          (GenOutcome.failure delivered)).1.store.sessions.head?).map Session.preview
      = some (mkPreview (tError lang)) := by
  have hst : (handleSendMessage st lang u b d1 d2 t1 t2 t3 t4 t5
        (GenOutcome.failure delivered)).1.store
      = (saveMessageLS (saveMessageLS st.store sid Role.user (jsTrim st.inputValue) false d1 t2).2
          sid Role.model (tError lang) true d2 t4).2 := by
    simp only [handleSendMessage, hc, hg]
    rw [if_neg hne]
    rfl
  constructor
  · simp only [handleSendMessage, hc, hg]
    rw [if_neg hne]
    rfl
  · rw [hst]
    have h0 : s0.id = sid := extractSession_id sid st.store.sessions s0 rest hs
    have h1 : (saveMessageLS st.store sid Role.user (jsTrim st.inputValue) false d1 t2).2.sessions
        = { s0 with updatedAt := t2, preview := mkPreview (jsTrim st.inputValue) } :: rest := by
      show bumpPreview st.store.sessions sid (jsTrim st.inputValue) t2 = _
      simp [bumpPreview, hs]
    show ((bumpPreview
        (saveMessageLS st.store sid Role.user (jsTrim st.inputValue) false d1 t2).2.sessions
        sid (tError lang) t4).head?).map Session.preview = some (mkPreview (tError lang))
    rw [h1]
    simp [bumpPreview, extractSession, h0]

theorem C6_preview_on_failure_witness :
    extractSession 1 stateA.store.sessions = (some sessionA, [])
    ∧ ((handleSendMessage stateA Lang.en 10 11 12 13 4 5 6 7 8
          (GenOutcome.failure [])).1.sessions = stateA.sessions
      ∧ ((handleSendMessage stateA Lang.en 10 11 12 13 4 5 6 7 8
            (GenOutcome.failure [])).1.store.sessions.head?).map Session.preview
        = some (mkPreview (tError Lang.en))) :=
  ⟨by decide,
   C6_preview_on_failure stateA Lang.en 10 11 12 13 4 5 6 7 8 [] 1 sessionA []
     (by decide) rfl rfl (by decide)⟩

theorem C6_durable_preview_becomes_error :
    ((handleSendMessage stateA Lang.en 10 11 12 13 4 5 6 7 8
        (GenOutcome.failure [])).1.store.sessions.map Session.preview)
      = [tError Lang.en]
    ∧ ¬ sessionA.preview = tError Lang.en
    ∧ ((handleSendMessage stateA Lang.en 10 11 12 13 4 5 6 7 8
        (GenOutcome.failure [])).1.sessions.map Session.preview)
      = [sessionA.preview] := by
  decide

/-- C3 (code evidence): a failed title derivation makes `generateTitle`
resolve with null, and the `then` continuation in `App.tsx` writes that
null into the session title — in memory and in the patch given to
`updateSession` — overwriting the placeholder, after which the
default-title re-derivation condition no longer holds. -/
theorem C3_title_overwritten_on_failure :
    generateTitle (Except.error "network") = none
    ∧ applyTitleResult [⟨1, some "New Chat", 0, 0, "p"⟩] 1 (generateTitle (Except.error "network"))
        = [⟨1, none, 0, 0, "p"⟩]
    ∧ (updateSessionLS ⟨[⟨1, some "New Chat", 0, 0, "p"⟩], []⟩ 1
        ⟨some (generateTitle (Except.error "network")), none, none⟩).sessions
        = [⟨1, none, 0, 0, "p"⟩]
    ∧ isDefaultTitle (some "New Chat") = true
    ∧ isDefaultTitle none = false := by
  decide

/-- C7 (corrected/amended): in the primary gateway (`dbService.ts`) an
update whose patch does not contain `updatedAt` merges only the named
fields: ids, `updatedAt` and `createdAt` of every entry are unchanged,
the list order is unchanged, non-matching sessions are untouched, and the
matching session gets exactly the patched title/preview. -/
theorem C7_update_frame (store : Store) (id0 : Nat) (p : SessionPatch)
    (hp : p.updatedAt = none) :
    ((updateSessionLS store id0 p).sessions.map (fun s => (s.id, s.updatedAt, s.createdAt))
       = store.sessions.map (fun s => (s.id, s.updatedAt, s.createdAt)))
    ∧ (∀ (j : Nat) (s : Session), store.sessions[j]? = some s → ¬ s.id = id0 →
        (updateSessionLS store id0 p).sessions[j]? = some s)
    ∧ (∀ (j : Nat) (s : Session), store.sessions[j]? = some s → s.id = id0 →
        (updateSessionLS store id0 p).sessions[j]?
          = some { s with title := p.title.getD s.title, preview := p.preview.getD s.preview }) := by
  refine ⟨?_, ?_, ?_⟩
  · show (store.sessions.map fun s => if s.id = id0 then applyPatch s p else s).map _ = _
    rw [List.map_map]
    apply List.map_congr_left
    intro s _
    by_cases h : s.id = id0
    · simp [applyPatch, h, hp]
    · simp [h]
  · intro j s hj hs
    show (store.sessions.map fun s => if s.id = id0 then applyPatch s p else s)[j]? = some s
    rw [List.getElem?_map, hj]
    simp [hs]
  · intro j s hj hs
    show (store.sessions.map fun s => if s.id = id0 then applyPatch s p else s)[j]? = _
    rw [List.getElem?_map, hj]
    simp [applyPatch, hs, hp]

theorem C7_update_frame_witness :
    (⟨some (some "T"), none, none⟩ : SessionPatch).updatedAt = none
    ∧ (((updateSessionLS ⟨[sessX, sessY], []⟩ 2 ⟨some (some "T"), none, none⟩).sessions.map
          (fun s => (s.id, s.updatedAt, s.createdAt))
        = ([sessX, sessY] : List Session).map (fun s => (s.id, s.updatedAt, s.createdAt)))
      ∧ (∀ (j : Nat) (s : Session), ([sessX, sessY] : List Session)[j]? = some s → ¬ s.id = 2 →
          (updateSessionLS ⟨[sessX, sessY], []⟩ 2 ⟨some (some "T"), none, none⟩).sessions[j]?
            = some s)
      ∧ (∀ (j : Nat) (s : Session), ([sessX, sessY] : List Session)[j]? = some s → s.id = 2 →
          (updateSessionLS ⟨[sessX, sessY], []⟩ 2 ⟨some (some "T"), none, none⟩).sessions[j]?
            = some { s with title := (⟨some (some "T"), none, none⟩ : SessionPatch).title.getD s.title,
                            preview := (⟨some (some "T"), none, none⟩ : SessionPatch).preview.getD s.preview })) :=
  ⟨rfl, C7_update_frame ⟨[sessX, sessY], []⟩ 2 ⟨some (some "T"), none, none⟩ rfl⟩

theorem C7_variant_bumps_updatedAt :
    (⟨some (some "T"), none, none⟩ : SessionPatch).updatedAt = none
    ∧ (updateSessionV2 [sessX, sessY] 2 ⟨some (some "T"), none, none⟩ 20).map
        (fun s => (s.id, s.updatedAt)) = [(1, 10), (2, 20)]
    ∧ (getSessionsV2 (updateSessionV2 [sessX, sessY] 2 ⟨some (some "T"), none, none⟩ 20)).map
        Session.id = [2, 1]
    ∧ (getSessionsV2 [sessX, sessY]).map Session.id = [1, 2] := by
  decide

/-- C8: the session-list recency invariant (`updatedAt` descending) is
preserved by every mutating operation — create (prepend a fresh session),
delete (filter), message-completion update (preview refresh + move to
front), and title-only update (in-place map) — and holds for the sorted
read path of the alternate variant's `getSessions`, given that the clock
value is at least every stored `updatedAt`. -/
theorem C8_sorted_invariant (l : List Session) (now sid nid : Nat) (c tnew : String)
    (h1 : SortedDesc l) (h2 : ∀ s ∈ l, s.updatedAt ≤ now) :
    SortedDesc (newSession nid now :: l)
    ∧ SortedDesc (l.filter (fun s => !(s.id == sid)))
    ∧ SortedDesc (updateSessionPreviewLocally l sid c now)
    ∧ SortedDesc (l.map (fun s => if s.id = sid then { s with title := some tnew } else s))
    ∧ SortedDesc (getSessionsV2 l) := by
  refine ⟨?_, ?_, ?_, ?_, ?_⟩
  · exact sortedDesc_cons (newSession nid now) l h1 h2
  · exact sortedDesc_filter l _ h1
  · exact sortedDesc_bumpPreview l sid c now h1 h2
  · rw [SortedDesc, List.pairwise_map]
    refine List.Pairwise.imp ?_ h1
    intro a b hab
    have ha : (if a.id = sid then { a with title := some tnew } else a).updatedAt
        = a.updatedAt := by split <;> rfl
    have hb : (if b.id = sid then { b with title := some tnew } else b).updatedAt
        = b.updatedAt := by split <;> rfl
    rw [ha, hb]
    exact hab
  · exact sortedDesc_sort l

theorem C8_sorted_invariant_witness :
    (SortedDesc [sessX, sessY] ∧ ∀ s ∈ ([sessX, sessY] : List Session), s.updatedAt ≤ 20)
    ∧ (SortedDesc (newSession 9 20 :: [sessX, sessY])
      ∧ SortedDesc (([sessX, sessY] : List Session).filter (fun s => !(s.id == 2)))
      ∧ SortedDesc (updateSessionPreviewLocally [sessX, sessY] 2 "zz" 20)
      ∧ SortedDesc (([sessX, sessY] : List Session).map
          (fun s => if s.id = 2 then { s with title := some "T" } else s))
      ∧ SortedDesc (getSessionsV2 [sessX, sessY])) :=
  ⟨⟨by decide, by decide⟩,
   C8_sorted_invariant [sessX, sessY] 20 2 9 "zz" "T" (by decide) (by decide)⟩

/-- C10: every gateway operation wraps its backend call in `apiRequest`,
so with a working localStorage it always resolves (`Except.ok`); when the
backend call fails the result is exactly the localStorage fallback
write/read.  Consequently a successful generation always ends with a
non-error Model message carrying the streamed final text. -/
theorem C10_gateway_never_rejects
    (e : String) (store : Store) (sidN now id0 mid tnow : Nat) (p : SessionPatch) (role : Role)
    (content : String) (isErr : Bool)
    (b1 : Except String (List Session)) (b2 b3 b4 b5 : Except String Unit)
    (st : AppState) (lang : Lang) (u b d1 d2 t1 t2 t3 t4 t5 sid : Nat) (chunks : List String)
    (hne : ¬ jsTrim st.inputValue = "") (hc : st.currentSessionId = some sid)
    (hg : st.isGenerating = false)
    (hfresh : ∀ m ∈ st.messages, ¬ m.id = b) (hub : ¬ u = b) :
    (∃ v, getSessionsDB b1 store = Except.ok v)
    ∧ (∃ v, createSessionDB b2 store sidN now = Except.ok v)
    ∧ (∃ v, updateSessionDB b3 store id0 p = Except.ok v)
    ∧ (∃ v, deleteSessionDB b4 store id0 = Except.ok v)
    ∧ (∃ v, saveMessageDB b5 store sid role content isErr mid tnow = Except.ok v)
    ∧ getSessionsDB (Except.error e) store = Except.ok store.sessions
    ∧ createSessionDB (Except.error e) store sidN now
        = Except.ok (newSession sidN now,
            { store with sessions := newSession sidN now :: store.sessions })
    ∧ updateSessionDB (Except.error e) store id0 p = Except.ok (updateSessionLS store id0 p)
    ∧ deleteSessionDB (Except.error e) store id0 = Except.ok (deleteSessionLS store id0)
    ∧ saveMessageDB (Except.error e) store sid role content isErr mid tnow
        = Except.ok (saveMessageLS store sid role content isErr mid tnow)
    ∧ (handleSendMessage st lang u b d1 d2 t1 t2 t3 t4 t5 (GenOutcome.success chunks)).1.messages
        = st.messages ++ [⟨u, sid, Role.user, jsTrim st.inputValue, t1, false⟩,
                          ⟨b, sid, Role.model, (streamChatResponse chunks).1, t3, false⟩] := by
  refine ⟨?_, ?_, ?_, ?_, ?_, rfl, rfl, rfl, rfl, rfl,
    send_success_messages st lang u b d1 d2 t1 t2 t3 t4 t5 chunks sid hne hc hg hfresh hub⟩
  · cases b1 with
    | ok v => exact ⟨v, rfl⟩
    | error _ => exact ⟨store.sessions, rfl⟩
  · cases b2 with
    | ok v => exact ⟨(newSession sidN now, store), rfl⟩
    | error _ =>
      exact ⟨(newSession sidN now,
        { store with sessions := newSession sidN now :: store.sessions }), rfl⟩
  · cases b3 with
    | ok v => exact ⟨store, rfl⟩
    | error _ => exact ⟨updateSessionLS store id0 p, rfl⟩
  · cases b4 with
    | ok v => exact ⟨store, rfl⟩
    | error _ => exact ⟨deleteSessionLS store id0, rfl⟩
  · cases b5 with
    | ok v => exact ⟨(⟨mid, sid, role, content, tnow, isErr⟩, store), rfl⟩
    | error _ => exact ⟨saveMessageLS store sid role content isErr mid tnow, rfl⟩

theorem C10_gateway_never_rejects_witness :
    (∃ v, getSessionsDB (Except.ok []) storeA = Except.ok v)
    ∧ (∃ v, createSessionDB (Except.ok ()) storeA 5 9 = Except.ok v)
    ∧ (∃ v, updateSessionDB (Except.ok ()) storeA 1 ⟨some (some "T"), none, none⟩ = Except.ok v)
    ∧ (∃ v, deleteSessionDB (Except.ok ()) storeA 1 = Except.ok v)
    ∧ (∃ v, saveMessageDB (Except.ok ()) storeA 1 Role.model "c" false 21 22 = Except.ok v)
    ∧ getSessionsDB (Except.error "x") storeA = Except.ok storeA.sessions
    ∧ createSessionDB (Except.error "x") storeA 5 9
        = Except.ok (newSession 5 9, { storeA with sessions := newSession 5 9 :: storeA.sessions })
    ∧ updateSessionDB (Except.error "x") storeA 1 ⟨some (some "T"), none, none⟩
        = Except.ok (updateSessionLS storeA 1 ⟨some (some "T"), none, none⟩)
    ∧ deleteSessionDB (Except.error "x") storeA 1 = Except.ok (deleteSessionLS storeA 1)
    ∧ saveMessageDB (Except.error "x") storeA 1 Role.model "c" false 21 22
        = Except.ok (saveMessageLS storeA 1 Role.model "c" false 21 22)
    ∧ (handleSendMessage stateA Lang.en 10 11 12 13 4 5 6 7 8
          (GenOutcome.success ["x"])).1.messages
        = stateA.messages ++ [⟨10, 1, Role.user, jsTrim stateA.inputValue, 4, false⟩,
                              ⟨11, 1, Role.model, (streamChatResponse ["x"]).1, 6, false⟩] :=
  C10_gateway_never_rejects "x" storeA 5 9 1 21 22 ⟨some (some "T"), none, none⟩ Role.model "c"
    false (Except.ok []) (Except.ok ()) (Except.ok ()) (Except.ok ()) (Except.ok ())
    stateA Lang.en 10 11 12 13 4 5 6 7 8 1 ["x"]
    (by decide) rfl rfl (by decide) (by decide)
